import Mathlib

/-!
Verification of the traffic-light detector core of `tl_detector.py`
(stop-line resolution and light-state stabilization).

The embedding models:
* `TLState` — the traffic-light color enumeration of `styx_msgs/TrafficLight`;
* `Point` / `dist2` — 2D positions with squared Euclidean distance (exact
  rational arithmetic idealizing the floats of the source);
* `get_closest_waypoint_to` — the nearest-waypoint query of
  `WaypointsWrapper` (modelled from the spec, see its doc comment);
* `ptlLoop` / `process_traffic_lights` — `TLDetector.process_traffic_lights`;
* `stabilize` — the debouncing state machine of `TLDetector.image_cb`;
* `image_cb` — one orchestrated observation cycle.
-/

/-- Traffic light color labels, as in `styx_msgs/TrafficLight`. -/
inductive TLState
  | red
  | yellow
  | green
  | unknown
deriving DecidableEq, Repr

/-- A 2D position with exact rational coordinates. -/
structure Point where
  x : ℚ
  y : ℚ
deriving DecidableEq, Repr

/-- Default point used only to totalize list lookups in statements. -/
def ptZero : Point := ⟨0, 0⟩

/-- Squared Euclidean distance between two 2D points. -/
def dist2 (p q : Point) : ℚ :=
  (p.x - q.x) * (p.x - q.x) + (p.y - q.y) * (p.y - q.y)

/-- Failure of the nearest-waypoint query on an empty route. -/
inductive RouteErr
  | emptyRoute
deriving DecidableEq, Repr

/-- Linear scan for the nearest waypoint: returns `(index, squared distance)`
of the closest list element, the lowest index winning ties. -/
def closestScan (p : Point) : List Point → Option (Nat × ℚ)
  | [] => none
  | w :: ws =>
    match closestScan p ws with
    | none => some (0, dist2 p w)
    | some (j, d) =>
      if dist2 p w ≤ d then some (0, dist2 p w) else some (j + 1, d)

/-- Modelled from the spec: `WaypointsWrapper.get_closest_waypoint_to`
(the file `waypoint_updater/waypoints_wrapper.py` is not part of the given
sources). Per the spec's `RouteIndex.closest` contract: given a 2D point it
returns the index into the route of the nearest waypoint by Euclidean
distance together with that distance (here its square, order-equivalent);
ties resolve to the lowest index; an empty route fails with
`EmptyRouteError`. -/
def get_closest_waypoint_to (route : List Point) (p : Point) :
    Except RouteErr (Nat × ℚ) :=
  match closestScan p route with
  | none => Except.error RouteErr.emptyRoute
  | some r => Except.ok r

/-- The index component of the nearest-waypoint query (0 on an empty route). -/
def nearestIdx (route : List Point) (p : Point) : Nat :=
  match get_closest_waypoint_to route p with
  | Except.ok r => r.1
  | Except.error _ => 0

/-- The constant `STATE_COUNT_THRESHOLD` of `tl_detector.py`. -/
def STATE_COUNT_THRESHOLD : Nat := 3

/-- The persistent stabilizer state of `TLDetector`:
`self.state`, `self.last_state`, `self.state_count`, `self.last_redlight_wp`. -/
structure StabState where
  state : TLState
  last_state : TLState
  state_count : Nat
  last_redlight_wp : Int
deriving DecidableEq, Repr

/-- The branch structure of `TLDetector.image_cb` before the final counter
increment: reset on a differing state (no publish), commit and publish once
the count reached the threshold, otherwise republish the old value. -/
def stabilizeCore (s : StabState) (light_wp : Int) (cand : TLState) :
    StabState × Option Int :=
  if s.state ≠ cand then
    ({ s with state_count := 0, state := cand }, none)
  else if STATE_COUNT_THRESHOLD ≤ s.state_count then
    let wp : Int := if cand = TLState.red then light_wp else -1
    ({ s with last_state := s.state, last_redlight_wp := wp }, some wp)
  else
    (s, some s.last_redlight_wp)

/-- One stabilizer cycle of `TLDetector.image_cb`: the branch logic of
`stabilizeCore` followed by `self.state_count += 1`. The second component is
the value published to `/traffic_waypoint` (`none` when nothing is
published). -/
def stabilize (s : StabState) (light_wp : Int) (cand : TLState) :
    StabState × Option Int :=
  let r := stabilizeCore s light_wp cand
  ({ r.1 with state_count := r.1.state_count + 1 }, r.2)

/-! ## Stabilizer theorems -/

/-- C1: once a state has stabilized (same state, count at the threshold),
the cycle commits `light_wp` for RED and `-1` otherwise, and publishes
exactly the committed value. -/
theorem tl_C1_commit (s : StabState) (light_wp : Int) (cand : TLState)
    (h1 : s.state = cand) (h2 : STATE_COUNT_THRESHOLD ≤ s.state_count) :
    (stabilize s light_wp cand).1.last_redlight_wp =
      (if cand = TLState.red then light_wp else -1) ∧
    (stabilize s light_wp cand).2 =
      some (if cand = TLState.red then light_wp else -1) := by
  simp [stabilize, stabilizeCore, h1, h2]

theorem tl_C1_commit_witness :
    ((⟨TLState.red, TLState.unknown, 3, -1⟩ : StabState).state = TLState.red ∧
      STATE_COUNT_THRESHOLD ≤ (⟨TLState.red, TLState.unknown, 3, -1⟩ : StabState).state_count) ∧
    ((stabilize ⟨TLState.red, TLState.unknown, 3, -1⟩ 7 TLState.red).1.last_redlight_wp =
      (if TLState.red = TLState.red then (7 : Int) else -1) ∧
    (stabilize ⟨TLState.red, TLState.unknown, 3, -1⟩ 7 TLState.red).2 =
      some (if TLState.red = TLState.red then (7 : Int) else -1)) :=
  ⟨⟨rfl, by decide⟩, tl_C1_commit ⟨TLState.red, TLState.unknown, 3, -1⟩ 7 TLState.red rfl (by decide)⟩

/-- C2: same state but count below the threshold — the previously committed
value is republished and the committed value is unchanged. -/
theorem tl_C2_hold (s : StabState) (light_wp : Int) (cand : TLState)
    (h1 : s.state = cand) (h2 : s.state_count < STATE_COUNT_THRESHOLD) :
    (stabilize s light_wp cand).2 = some s.last_redlight_wp ∧
    (stabilize s light_wp cand).1.last_redlight_wp = s.last_redlight_wp := by
  simp [stabilize, stabilizeCore, h1, Nat.not_le.mpr h2]

theorem tl_C2_hold_witness :
    ((⟨TLState.red, TLState.unknown, 2, 9⟩ : StabState).state = TLState.red ∧
      (⟨TLState.red, TLState.unknown, 2, 9⟩ : StabState).state_count < STATE_COUNT_THRESHOLD) ∧
    ((stabilize ⟨TLState.red, TLState.unknown, 2, 9⟩ 7 TLState.red).2 = some 9 ∧
      (stabilize ⟨TLState.red, TLState.unknown, 2, 9⟩ 7 TLState.red).1.last_redlight_wp = 9) :=
  ⟨⟨rfl, by decide⟩, tl_C2_hold ⟨TLState.red, TLState.unknown, 2, 9⟩ 7 TLState.red rfl (by decide)⟩

/-- C3 counterexample: on a reset cycle (candidate differs from the tracked
state) the stabilizer publishes nothing, contradicting the claim that every
cycle emits the previously committed value. -/
theorem tl_C3_reset_no_output :
    (stabilize ⟨TLState.unknown, TLState.unknown, 0, -1⟩ 5 TLState.red).2 = none := by
  decide

/-- C3 amended: the stabilizer publishes exactly on cycles whose candidate
state equals the tracked state (the post-cycle committed value); a reset
cycle publishes nothing. -/
theorem tl_C3_output_iff_same (s : StabState) (light_wp : Int) (cand : TLState) :
    (stabilize s light_wp cand).2 =
      (if s.state = cand
        then some (stabilize s light_wp cand).1.last_redlight_wp
        else none) := by
  by_cases h : s.state = cand
  · by_cases h2 : STATE_COUNT_THRESHOLD ≤ s.state_count
    · simp [stabilize, stabilizeCore, h, h2]
    · simp [stabilize, stabilizeCore, h, h2]
  · simp [stabilize, stabilizeCore, h]

/-- C6: a differing observation adopts the candidate state and resets the
counter to zero; the unconditional end-of-cycle increment then makes the
reset cycle count as the first observation; on a matching observation the
counter is simply incremented. -/
theorem tl_C6_reset (s : StabState) (light_wp : Int) (cand : TLState) :
    (s.state ≠ cand →
      (stabilize s light_wp cand).1.state = cand ∧
      (stabilize s light_wp cand).1.state_count = 0 + 1) ∧
    (s.state = cand →
      (stabilize s light_wp cand).1.state_count = s.state_count + 1) := by
  constructor
  · intro h
    simp [stabilize, stabilizeCore, h]
  · intro h
    by_cases h2 : STATE_COUNT_THRESHOLD ≤ s.state_count
    · simp [stabilize, stabilizeCore, h, h2]
    · simp [stabilize, stabilizeCore, h, h2]

theorem tl_C6_reset_witness :
    (((⟨TLState.green, TLState.unknown, 2, -1⟩ : StabState).state ≠ TLState.red →
      (stabilize ⟨TLState.green, TLState.unknown, 2, -1⟩ 4 TLState.red).1.state = TLState.red ∧
      (stabilize ⟨TLState.green, TLState.unknown, 2, -1⟩ 4 TLState.red).1.state_count = 0 + 1) ∧
    ((⟨TLState.green, TLState.unknown, 2, -1⟩ : StabState).state = TLState.red →
      (stabilize ⟨TLState.green, TLState.unknown, 2, -1⟩ 4 TLState.red).1.state_count = 2 + 1)) ∧
    (stabilize ⟨TLState.green, TLState.unknown, 2, -1⟩ 4 TLState.red).1.state_count = 1 :=
  ⟨tl_C6_reset ⟨TLState.green, TLState.unknown, 2, -1⟩ 4 TLState.red,
    ((tl_C6_reset ⟨TLState.green, TLState.unknown, 2, -1⟩ 4 TLState.red).1 (by decide)).2⟩

/-! ## Stop-line resolver (`TLDetector.process_traffic_lights`) -/

/-- The ways an observation cycle can abort:
`missingRoute` — the route was never received, so the waypoint wrapper is
absent (`AttributeError` in the source); `emptyRoute` — the nearest-waypoint
query failed on an empty route; `indexError` — `stop_line_positions[i]` was
evaluated past the end of the stop-line list. -/
inductive CycleErr
  | missingRoute
  | emptyRoute
  | indexError
deriving DecidableEq, Repr

/-- The light loop of `process_traffic_lights`: iterate over the lights with
their indices, look up the stop line at the same index, find the waypoint
nearest to it, and keep the light whose nonnegative step gap to the car's
waypoint index is strictly below the running bound. -/
def ptlLoop (wps stops : List Point) (car : Nat) :
    List TLState → Nat → Int → Option (TLState × Nat) →
      Except CycleErr (Option (TLState × Nat))
  | [], _, _, acc => Except.ok acc
  | light :: rest, i, bound, acc =>
    match stops[i]? with
    | none => Except.error CycleErr.indexError
    | some line =>
      match get_closest_waypoint_to wps line with
      | Except.error _ => Except.error CycleErr.emptyRoute
      | Except.ok tmp =>
        let step_gap : Int := (tmp.1 : Int) - (car : Int)
        if 0 ≤ step_gap ∧ step_gap < bound then
          ptlLoop wps stops car rest (i + 1) step_gap (some (light, tmp.1))
        else
          ptlLoop wps stops car rest (i + 1) bound acc

/-- The resolver `TLDetector.process_traffic_lights`: with no pose the loop is skipped and
`(-1, UNKNOWN)` is returned; with a pose but no route the cycle aborts
(`AttributeError` on the absent wrapper); otherwise the car's nearest
waypoint index is computed, the light loop runs with the running bound
initialized to the route length, and the winning light's stop-line waypoint
index is paired with that light's observed state (`get_light_state` returns
the light's ground-truth state), or `(-1, UNKNOWN)` when no candidate was
found. -/
def process_traffic_lights (pose : Option Point) (waypoints : Option (List Point))
    (stops : List Point) (lights : List TLState) :
    Except CycleErr (Int × TLState) :=
  match pose with
  | none => Except.ok (-1, TLState.unknown)
  | some pp =>
    match waypoints with
    | none => Except.error CycleErr.missingRoute
    | some wps =>
      match get_closest_waypoint_to wps pp with
      | Except.error _ => Except.error CycleErr.emptyRoute
      | Except.ok car =>
        match ptlLoop wps stops car.1 lights 0 (wps.length : Int) none with
        | Except.error e => Except.error e
        | Except.ok none => Except.ok (-1, TLState.unknown)
        | Except.ok (some (light, idx)) => Except.ok ((idx : Int), light)

/-- One full observation cycle of `TLDetector.image_cb`: resolve, then feed
the stabilizer. An exception raised during resolution aborts the callback:
the stabilizer state is untouched and nothing is published. -/
def image_cb (pose : Option Point) (waypoints : Option (List Point))
    (stops : List Point) (lights : List TLState) (s : StabState) :
    StabState × Option Int :=
  match process_traffic_lights pose waypoints stops lights with
  | Except.error _ => (s, none)
  | Except.ok r => stabilize s r.1 r.2

/-! ## Orchestrator error behavior (C7, C8) -/

/-- C7 counterexample: with the pose missing (fresh stabilizer state, route
present), the cycle still publishes `-1`, contradicting the claim that such
a cycle is skipped entirely with no output. -/
theorem tl_C7_missing_pose_publishes :
    (image_cb none (some [ptZero]) [] [] ⟨TLState.unknown, TLState.unknown, 0, -1⟩).2 =
      some (-1) := by
  decide

/-- C7 amended: with a pose but no route the cycle aborts with no output and
an unchanged stabilizer state; with the pose missing the resolver step is
skipped but the cycle is not: the stabilizer still runs on the no-candidate
pair `(-1, UNKNOWN)` and publishes on every non-reset cycle. -/
theorem tl_C7_missing_inputs (p : Point) (waypoints : Option (List Point))
    (stops : List Point) (lights : List TLState) (s : StabState) :
    image_cb (some p) none stops lights s = (s, none) ∧
    image_cb none waypoints stops lights s = stabilize s (-1) TLState.unknown := by
  exact ⟨rfl, rfl⟩

/-- C8 counterexample: a stop-line list strictly longer than the light list
(2 vs 1) is silently tolerated — the resolver returns a normal result,
ignoring the surplus stop line, instead of failing. -/
theorem tl_C8_mismatch_tolerated :
    process_traffic_lights (some ptZero) (some [ptZero, ⟨1, 0⟩])
      [⟨1, 0⟩, ⟨5, 5⟩] [TLState.red] = Except.ok (1, TLState.red) := by
  norm_num [process_traffic_lights, ptlLoop, get_closest_waypoint_to, closestScan, dist2, ptZero]

/-! ## Nearest-waypoint query (C9) -/

/-- The linear scan returns the index of a closest element, with the lowest
index winning ties, together with its squared distance. -/
theorem closestScan_spec (p : Point) (route : List Point) (h : route ≠ []) :
    ∃ i d, closestScan p route = some (i, d) ∧ i < route.length ∧
      d = dist2 p (route.getD i ptZero) ∧
      (∀ j, j < route.length → d ≤ dist2 p (route.getD j ptZero)) ∧
      (∀ j, j < route.length → dist2 p (route.getD j ptZero) = d → i ≤ j) := by
  induction route with
  | nil => exact absurd rfl h
  | cons w ws ih =>
    by_cases hws : ws = []
    · subst hws
      refine ⟨0, dist2 p w, by simp [closestScan], by simp, by simp, ?_, ?_⟩
      · intro j hj
        have hj0 : j = 0 := Nat.lt_one_iff.mp (by simpa using hj)
        subst hj0
        simp
      · intro j _ _
        exact Nat.zero_le j
    · obtain ⟨i, d, hscan, hlt, hd, hmin, htie⟩ := ih hws
      by_cases hle : dist2 p w ≤ d
      · refine ⟨0, dist2 p w, ?_, by simp, by simp, ?_, ?_⟩
        · simp [closestScan, hscan, hle]
        · intro j hj
          cases j with
          | zero => simp
          | succ j' =>
            simp only [List.getD_cons_succ]
            exact le_trans hle (hmin j' (by simpa using hj))
        · intro j _ _
          exact Nat.zero_le j
      · push_neg at hle
        refine ⟨i + 1, d, ?_, by simpa using Nat.succ_lt_succ hlt, ?_, ?_, ?_⟩
        · simp [closestScan, hscan, not_le.mpr hle]
        · simpa using hd
        · intro j hj
          cases j with
          | zero =>
            simpa using le_of_lt hle
          | succ j' =>
            simp only [List.getD_cons_succ]
            exact hmin j' (by simpa using hj)
        · intro j hj heq
          cases j with
          | zero =>
            exfalso
            simp only [List.getD_cons_zero] at heq
            exact absurd heq (ne_of_gt hle)
          | succ j' =>
            have := htie j' (by simpa using hj) (by simpa using heq)
            omega

/-- On a nonempty route the query succeeds, with `nearestIdx` as its index
component, and that index is within bounds. -/
theorem get_closest_ok (route : List Point) (p : Point) (h : route ≠ []) :
    ∃ d, get_closest_waypoint_to route p = Except.ok (nearestIdx route p, d) ∧
      nearestIdx route p < route.length := by
  obtain ⟨i, d, hscan, hlt, -, -, -⟩ := closestScan_spec p route h
  have hok : get_closest_waypoint_to route p = Except.ok (i, d) := by
    simp [get_closest_waypoint_to, hscan]
  refine ⟨d, ?_, ?_⟩
  · rw [hok]
    simp [nearestIdx, hok]
  · simpa [nearestIdx, hok] using hlt

/-- C9: on every non-empty route the nearest-waypoint query returns an
in-bounds index attaining the minimum squared Euclidean distance, ties
resolved to the lowest index; on the empty route it fails with
`EmptyRouteError`. -/
theorem tl_C9_closest (route : List Point) (p : Point) :
    (route = [] → get_closest_waypoint_to route p = Except.error RouteErr.emptyRoute) ∧
    (route ≠ [] → ∃ i d, get_closest_waypoint_to route p = Except.ok (i, d) ∧
      i < route.length ∧
      d = dist2 p (route.getD i ptZero) ∧
      (∀ j, j < route.length → d ≤ dist2 p (route.getD j ptZero)) ∧
      (∀ j, j < route.length → dist2 p (route.getD j ptZero) = d → i ≤ j)) := by
  constructor
  · intro h
    subst h
    rfl
  · intro h
    obtain ⟨i, d, hscan, hlt, hd, hmin, htie⟩ := closestScan_spec p route h
    exact ⟨i, d, by simp [get_closest_waypoint_to, hscan], hlt, hd, hmin, htie⟩

theorem tl_C9_closest_witness :
    get_closest_waypoint_to [] ptZero = Except.error RouteErr.emptyRoute ∧
    (∃ i d, get_closest_waypoint_to [ptZero, ⟨1, 0⟩] ⟨1, 0⟩ = Except.ok (i, d) ∧
      i < ([ptZero, ⟨1, 0⟩] : List Point).length ∧
      d = dist2 ⟨1, 0⟩ (([ptZero, ⟨1, 0⟩] : List Point).getD i ptZero) ∧
      (∀ j, j < ([ptZero, ⟨1, 0⟩] : List Point).length →
        d ≤ dist2 ⟨1, 0⟩ (([ptZero, ⟨1, 0⟩] : List Point).getD j ptZero)) ∧
      (∀ j, j < ([ptZero, ⟨1, 0⟩] : List Point).length →
        dist2 ⟨1, 0⟩ (([ptZero, ⟨1, 0⟩] : List Point).getD j ptZero) = d → i ≤ j)) :=
  ⟨(tl_C9_closest [] ptZero).1 rfl,
    (tl_C9_closest [ptZero, ⟨1, 0⟩] ⟨1, 0⟩).2 (List.cons_ne_nil _ _)⟩

/-! ## Resolver candidate direction (C4) -/

/-- The light loop only ever stores candidates whose nearest route index is
at or ahead of the car's route index. -/
theorem ptlLoop_ge (wps stops : List Point) (car : Nat) :
    ∀ (rest : List TLState) (i : Nat) (bound : Int) (acc acc' : Option (TLState × Nat)),
    (∀ l x, acc = some (l, x) → car ≤ x) →
    ptlLoop wps stops car rest i bound acc = Except.ok acc' →
    ∀ l x, acc' = some (l, x) → car ≤ x := by
  intro rest
  induction rest with
  | nil =>
    intro i bound acc acc' hacc hrun
    simp only [ptlLoop, Except.ok.injEq] at hrun
    subst hrun
    exact hacc
  | cons light rest ih =>
    intro i bound acc acc' hacc hrun
    cases hstop : stops[i]? with
    | none => simp [ptlLoop, hstop] at hrun
    | some line =>
      cases hclosest : get_closest_waypoint_to wps line with
      | error e => simp [ptlLoop, hstop, hclosest] at hrun
      | ok tmp =>
        simp only [ptlLoop, hstop, hclosest] at hrun
        by_cases hcond :
            0 ≤ (tmp.1 : Int) - (car : Int) ∧ (tmp.1 : Int) - (car : Int) < bound
        · rw [if_pos hcond] at hrun
          refine ih _ _ _ _ ?_ hrun
          intro l x hx
          rw [Option.some.injEq, Prod.mk.injEq] at hx
          have h0 := hcond.1
          omega
        · rw [if_neg hcond] at hrun
          exact ih _ _ _ _ hacc hrun

/-- C4: the resolver never returns a stop line whose nearest route index is
behind the vehicle's route index — any result other than `-1` is at or ahead
of the car's index, and no route-length wraparound is applied. -/
theorem tl_C4_never_behind (p : Point) (wps stops : List Point) (lights : List TLState)
    (car : Nat) (d : ℚ) (wp : Int) (st : TLState)
    (hcar : get_closest_waypoint_to wps p = Except.ok (car, d))
    (hres : process_traffic_lights (some p) (some wps) stops lights = Except.ok (wp, st))
    (hwp : wp ≠ -1) :
    (car : Int) ≤ wp := by
  simp only [process_traffic_lights, hcar] at hres
  cases hloop : ptlLoop wps stops car lights 0 (wps.length : Int) none with
  | error e => rw [hloop] at hres; cases hres
  | ok acc =>
    rw [hloop] at hres
    cases acc with
    | none =>
      rw [Except.ok.injEq, Prod.mk.injEq] at hres
      exact absurd hres.1.symm hwp
    | some r =>
      obtain ⟨light, idx⟩ := r
      rw [Except.ok.injEq, Prod.mk.injEq] at hres
      have hge : car ≤ idx :=
        ptlLoop_ge wps stops car lights 0 (wps.length : Int) none (some (light, idx))
          (fun l x hx => by simp at hx) hloop light idx rfl
      omega

/-! ## Full characterization of the selection loop (C5, C10) -/

/-- The step gap of stop line `j`: its nearest route index minus the car's
route index (negative when the stop line is behind the car). -/
def stepGap (wps stops : List Point) (car : Nat) (j : Nat) : Int :=
  (nearestIdx wps (stops.getD j ptZero) : Int) - (car : Int)

/-- Every step gap is strictly below the route length, so the loop's initial
bound never excludes an admissible candidate. -/
theorem stepGap_lt_length (wps stops : List Point) (car : Nat) (j : Nat)
    (hw : wps ≠ []) : stepGap wps stops car j < (wps.length : Int) := by
  obtain ⟨d, -, hlt⟩ := get_closest_ok wps (stops.getD j ptZero) hw
  unfold stepGap
  omega

/-- Invariant of the light loop after scanning the first `n` lights with
initial bound `B0`: either no candidate was kept — and no scanned stop line
was admissible — or the kept candidate is the first admissible stop line of
minimal gap among the first `n`, and the bound equals its gap. -/
def LoopInv (wps stops : List Point) (car : Nat) (lights : List TLState) (B0 : Int)
    (n : Nat) (bound : Int) (acc : Option (TLState × Nat)) : Prop :=
  (acc = none ∧ bound = B0 ∧
    ∀ j, j < n → ¬(0 ≤ stepGap wps stops car j ∧ stepGap wps stops car j < B0)) ∨
  (∃ k, k < n ∧
    acc = some (lights.getD k TLState.unknown, nearestIdx wps (stops.getD k ptZero)) ∧
    bound = stepGap wps stops car k ∧
    0 ≤ stepGap wps stops car k ∧ stepGap wps stops car k < B0 ∧
    (∀ j, j < n → 0 ≤ stepGap wps stops car j → stepGap wps stops car j < B0 →
      stepGap wps stops car k ≤ stepGap wps stops car j) ∧
    (∀ j, j < k → 0 ≤ stepGap wps stops car j → stepGap wps stops car j < B0 →
      stepGap wps stops car k < stepGap wps stops car j))

/-- The light loop preserves `LoopInv` and never fails when the lights fit
inside the stop-line list and the route is non-empty. -/
theorem ptlLoop_inv (wps stops : List Point) (car : Nat) (lights : List TLState)
    (B0 : Int) (hw : wps ≠ []) (hlen : lights.length ≤ stops.length) :
    ∀ (rest : List TLState) (i : Nat) (bound : Int) (acc : Option (TLState × Nat)),
    rest = lights.drop i → i ≤ lights.length →
    LoopInv wps stops car lights B0 i bound acc →
    ∃ bound' acc', ptlLoop wps stops car rest i bound acc = Except.ok acc' ∧
      LoopInv wps stops car lights B0 lights.length bound' acc' := by
  intro rest
  induction rest with
  | nil =>
    intro i bound acc hdrop hile hinv
    have hge : lights.length ≤ i := by
      have hlen0 := congrArg List.length hdrop
      simp [List.length_drop] at hlen0
      omega
    have hi : i = lights.length := le_antisymm hile hge
    subst hi
    exact ⟨bound, acc, by simp [ptlLoop], hinv⟩
  | cons light rest' ih =>
    intro i bound acc hdrop hile hinv
    have hi : i < lights.length := by
      by_contra hge
      push_neg at hge
      rw [List.drop_eq_nil_of_le hge] at hdrop
      exact absurd hdrop (List.cons_ne_nil _ _)
    have hcons : lights.drop i = lights.getD i TLState.unknown :: lights.drop (i + 1) := by
      rw [List.getD_eq_getElem _ _ hi]
      exact List.drop_eq_getElem_cons hi
    rw [hcons] at hdrop
    have hlight : light = lights.getD i TLState.unknown := (List.cons.injEq _ _ _ _ ▸ hdrop).1
    have hrest' : rest' = lights.drop (i + 1) := (List.cons.injEq _ _ _ _ ▸ hdrop).2
    have histop : i < stops.length := lt_of_lt_of_le hi hlen
    have hstop : stops[i]? = some (stops.getD i ptZero) := by
      rw [List.getElem?_eq_getElem histop, List.getD_eq_getElem _ _ histop]
    obtain ⟨d, hok, hidxlt⟩ := get_closest_ok wps (stops.getD i ptZero) hw
    have hgi : stepGap wps stops car i =
        (nearestIdx wps (stops.getD i ptZero) : Int) - (car : Int) := rfl
    simp only [ptlLoop, hstop, hok]
    by_cases hcond :
        0 ≤ (nearestIdx wps (stops.getD i ptZero) : Int) - (car : Int) ∧
          (nearestIdx wps (stops.getD i ptZero) : Int) - (car : Int) < bound
    · rw [if_pos hcond]
      refine ih (i + 1) _ _ hrest' hi ?_
      rcases hinv with ⟨-, hB, hno⟩ | ⟨k, hk, -, hbk, hgk0, hgkB, hmin, htie⟩
      · refine Or.inr ⟨i, Nat.lt_succ_self i, by rw [hlight], rfl,
          hcond.1, hB ▸ hcond.2, ?_, ?_⟩
        · intro j hj hgj0 hgjB
          rcases Nat.lt_succ_iff_lt_or_eq.mp hj with hj' | hj'
          · exact absurd ⟨hgj0, hgjB⟩ (hno j hj')
          · subst hj'
            exact le_refl _
        · intro j hj hgj0 hgjB
          exact absurd ⟨hgj0, hgjB⟩ (hno j hj)
      · have hlti : stepGap wps stops car i < stepGap wps stops car k := by
          rw [hgi]
          omega
        refine Or.inr ⟨i, Nat.lt_succ_self i, by rw [hlight], rfl,
          hcond.1, lt_trans hlti hgkB, ?_, ?_⟩
        · intro j hj hgj0 hgjB
          rcases Nat.lt_succ_iff_lt_or_eq.mp hj with hj' | hj'
          · exact le_of_lt (lt_of_lt_of_le hlti (hmin j hj' hgj0 hgjB))
          · subst hj'
            exact le_refl _
        · intro j hj hgj0 hgjB
          exact lt_of_lt_of_le hlti (hmin j hj hgj0 hgjB)
    · rw [if_neg hcond]
      refine ih (i + 1) _ _ hrest' hi ?_
      rcases hinv with ⟨hn, hB, hno⟩ | ⟨k, hk, hacc, hbk, hgk0, hgkB, hmin, htie⟩
      · refine Or.inl ⟨hn, hB, ?_⟩
        intro j hj
        rcases Nat.lt_succ_iff_lt_or_eq.mp hj with hj' | hj'
        · exact hno j hj'
        · subst hj'
          rw [hB] at hcond
          exact fun hc => hcond ⟨hgi ▸ hc.1, hgi ▸ hc.2⟩
      · refine Or.inr ⟨k, Nat.lt_succ_of_lt hk, hacc, hbk, hgk0, hgkB, ?_, htie⟩
        intro j hj hgj0 hgjB
        rcases Nat.lt_succ_iff_lt_or_eq.mp hj with hj' | hj'
        · exact hmin j hj' hgj0 hgjB
        · subst hj'
          rw [hbk] at hcond
          rw [hgi] at hgj0 ⊢
          omega

/-- Running the light loop from its initial state succeeds and establishes
the full-scan invariant. -/
theorem ptlLoop_run (wps stops : List Point) (car : Nat) (lights : List TLState)
    (B0 : Int) (hw : wps ≠ []) (hlen : lights.length ≤ stops.length) :
    ∃ bound' acc', ptlLoop wps stops car lights 0 B0 none = Except.ok acc' ∧
      LoopInv wps stops car lights B0 lights.length bound' acc' :=
  ptlLoop_inv wps stops car lights B0 hw hlen lights 0 B0 none (by simp)
    (Nat.zero_le _) (Or.inl ⟨rfl, rfl, fun j hj => absurd hj (Nat.not_lt_zero j)⟩)

/-- A successful vehicle-position query forces the route to be non-empty. -/
theorem route_ne_nil_of_closest_ok (wps : List Point) (p : Point) (car : Nat) (d : ℚ)
    (hcar : get_closest_waypoint_to wps p = Except.ok (car, d)) : wps ≠ [] := by
  intro h
  subst h
  exact absurd hcar (by simp [get_closest_waypoint_to, closestScan])

/-- C5: with aligned stop-line and light lists, the resolver returns the
admissible (gap ≥ 0) stop line of minimal gap — ties broken by the lowest
stop-line index — paired with the light state observed at that same index;
with no admissible stop line it returns `(-1, UNKNOWN)`. -/
theorem tl_C5_selection (p : Point) (wps stops : List Point) (lights : List TLState)
    (car : Nat) (dc : ℚ)
    (hcar : get_closest_waypoint_to wps p = Except.ok (car, dc))
    (hlen : lights.length = stops.length) :
    ((∃ j, j < lights.length ∧ 0 ≤ stepGap wps stops car j) →
      ∃ k, k < lights.length ∧
        process_traffic_lights (some p) (some wps) stops lights =
          Except.ok ((nearestIdx wps (stops.getD k ptZero) : Int),
            lights.getD k TLState.unknown) ∧
        0 ≤ stepGap wps stops car k ∧
        (∀ j, j < lights.length → 0 ≤ stepGap wps stops car j →
          stepGap wps stops car k ≤ stepGap wps stops car j) ∧
        (∀ j, j < k → 0 ≤ stepGap wps stops car j →
          stepGap wps stops car k < stepGap wps stops car j)) ∧
    ((∀ j, j < lights.length → ¬ 0 ≤ stepGap wps stops car j) →
      process_traffic_lights (some p) (some wps) stops lights =
        Except.ok (-1, TLState.unknown)) := by
  have hw : wps ≠ [] := route_ne_nil_of_closest_ok wps p car dc hcar
  obtain ⟨bound', acc', hrun, hinv⟩ :=
    ptlLoop_run wps stops car lights (wps.length : Int) hw (le_of_eq hlen)
  have hball : ∀ j, stepGap wps stops car j < (wps.length : Int) :=
    fun j => stepGap_lt_length wps stops car j hw
  constructor
  · rintro ⟨j0, hj0, hg0⟩
    rcases hinv with ⟨-, -, hno⟩ | ⟨k, hk, hacc, -, hgk0, -, hmin, htie⟩
    · exact absurd ⟨hg0, hball j0⟩ (hno j0 hj0)
    · refine ⟨k, hk, ?_, hgk0, ?_, ?_⟩
      · simp only [process_traffic_lights, hcar, hrun, hacc]
      · intro j hj hgj
        exact hmin j hj hgj (hball j)
      · intro j hj hgj
        exact htie j hj hgj (hball j)
  · intro hall
    rcases hinv with ⟨hnone, -, -⟩ | ⟨k, hk, -, -, hgk0, -, -, -⟩
    · simp only [process_traffic_lights, hcar, hrun, hnone]
    · exact absurd hgk0 (hall k hk)

/-- Concrete evaluation shared by the resolver witnesses: on the two-point
route the query at the first waypoint returns index 0 at distance 0. -/
theorem closest_eval_base :
    get_closest_waypoint_to [ptZero, ⟨1, 0⟩] ptZero = Except.ok (0, 0) := by
  simp [get_closest_waypoint_to, closestScan, dist2, ptZero]

theorem tl_C4_never_behind_witness :
    get_closest_waypoint_to [ptZero, ⟨1, 0⟩] ptZero = Except.ok (0, 0) ∧
    process_traffic_lights (some ptZero) (some [ptZero, ⟨1, 0⟩]) [ptZero] [TLState.red] =
      Except.ok (0, TLState.red) ∧
    (0 : Int) ≠ -1 ∧
    ((0 : Nat) : Int) ≤ (0 : Int) :=
  ⟨closest_eval_base,
    by simp [process_traffic_lights, ptlLoop, closest_eval_base],
    by decide,
    tl_C4_never_behind ptZero [ptZero, ⟨1, 0⟩] [ptZero] [TLState.red] 0 0 0 TLState.red
      closest_eval_base
      (by simp [process_traffic_lights, ptlLoop, closest_eval_base])
      (by decide)⟩

theorem tl_C5_selection_witness :
    get_closest_waypoint_to [ptZero, ⟨1, 0⟩] ptZero = Except.ok (0, 0) ∧
    ([TLState.red] : List TLState).length = ([ptZero] : List Point).length ∧
    (((∃ j, j < ([TLState.red] : List TLState).length ∧
        0 ≤ stepGap [ptZero, ⟨1, 0⟩] [ptZero] 0 j) →
      ∃ k, k < ([TLState.red] : List TLState).length ∧
        process_traffic_lights (some ptZero) (some [ptZero, ⟨1, 0⟩]) [ptZero] [TLState.red] =
          Except.ok ((nearestIdx [ptZero, ⟨1, 0⟩] (([ptZero] : List Point).getD k ptZero) : Int),
            ([TLState.red] : List TLState).getD k TLState.unknown) ∧
        0 ≤ stepGap [ptZero, ⟨1, 0⟩] [ptZero] 0 k ∧
        (∀ j, j < ([TLState.red] : List TLState).length →
          0 ≤ stepGap [ptZero, ⟨1, 0⟩] [ptZero] 0 j →
          stepGap [ptZero, ⟨1, 0⟩] [ptZero] 0 k ≤ stepGap [ptZero, ⟨1, 0⟩] [ptZero] 0 j) ∧
        (∀ j, j < k → 0 ≤ stepGap [ptZero, ⟨1, 0⟩] [ptZero] 0 j →
          stepGap [ptZero, ⟨1, 0⟩] [ptZero] 0 k < stepGap [ptZero, ⟨1, 0⟩] [ptZero] 0 j)) ∧
    ((∀ j, j < ([TLState.red] : List TLState).length →
        ¬ 0 ≤ stepGap [ptZero, ⟨1, 0⟩] [ptZero] 0 j) →
      process_traffic_lights (some ptZero) (some [ptZero, ⟨1, 0⟩]) [ptZero] [TLState.red] =
        Except.ok (-1, TLState.unknown))) :=
  ⟨closest_eval_base, rfl,
    tl_C5_selection ptZero [ptZero, ⟨1, 0⟩] [ptZero] [TLState.red] 0 0 closest_eval_base rfl⟩

/-! ## Unrestricted selection and the initial bound (C10) -/

/-- Modelled from the spec's words, as the comparison side of the refinement
claim C10: an unrestricted minimum-gap selection over all candidates with
gap ≥ 0 — the same scan as the code's loop, but with no initial bound on the
gap (the running best gap is carried alongside the candidate). -/
def specLoop (wps stops : List Point) (car : Nat) :
    List TLState → Nat → Option (TLState × Nat × Int) →
      Option (TLState × Nat × Int)
  | [], _, acc => acc
  | light :: rest, i, acc =>
    let x := nearestIdx wps (stops.getD i ptZero)
    let g : Int := (x : Int) - (car : Int)
    match acc with
    | none =>
      if 0 ≤ g then specLoop wps stops car rest (i + 1) (some (light, x, g))
      else specLoop wps stops car rest (i + 1) none
    | some best =>
      if 0 ≤ g ∧ g < best.2.2 then specLoop wps stops car rest (i + 1) (some (light, x, g))
      else specLoop wps stops car rest (i + 1) (some best)

/-- Simulation between the code's bounded loop and the unrestricted
selection: related states stay related, because every gap is strictly below
the route length. -/
theorem ptlLoop_sim_spec (wps stops : List Point) (car : Nat) (hw : wps ≠ []) :
    ∀ (rest : List TLState) (i : Nat) (bound : Int) (acc : Option (TLState × Nat))
      (accS : Option (TLState × Nat × Int)),
    i + rest.length ≤ stops.length →
    ((acc = none ∧ accS = none ∧ bound = (wps.length : Int)) ∨
      (∃ l x, acc = some (l, x) ∧ accS = some (l, x, bound))) →
    ptlLoop wps stops car rest i bound acc =
      Except.ok ((specLoop wps stops car rest i accS).map (fun t => (t.1, t.2.1))) := by
  intro rest
  induction rest with
  | nil =>
    intro i bound acc accS hlen hrel
    rcases hrel with ⟨h1, h2, -⟩ | ⟨l, x, h1, h2⟩
    · subst h1; subst h2
      simp [ptlLoop, specLoop]
    · subst h1; subst h2
      simp [ptlLoop, specLoop]
  | cons light rest' ih =>
    intro i bound acc accS hlen hrel
    have hi : i < stops.length := by
      simp only [List.length_cons] at hlen
      omega
    have hstop : stops[i]? = some (stops.getD i ptZero) := by
      rw [List.getElem?_eq_getElem hi, List.getD_eq_getElem _ _ hi]
    obtain ⟨d, hok, hidxlt⟩ := get_closest_ok wps (stops.getD i ptZero) hw
    have hlen' : (i + 1) + rest'.length ≤ stops.length := by
      simp only [List.length_cons] at hlen
      omega
    have hglt : (nearestIdx wps (stops.getD i ptZero) : Int) - (car : Int) <
        (wps.length : Int) := by omega
    rcases hrel with ⟨h1, h2, h3⟩ | ⟨l, x, h1, h2⟩
    · subst h1; subst h2; subst h3
      simp only [ptlLoop, specLoop, hstop, hok]
      by_cases hg : 0 ≤ (nearestIdx wps (stops.getD i ptZero) : Int) - (car : Int)
      · rw [if_pos ⟨hg, hglt⟩, if_pos hg]
        exact ih (i + 1) _ _ _ hlen' (Or.inr ⟨light, _, rfl, rfl⟩)
      · rw [if_neg (fun hc => hg hc.1), if_neg hg]
        exact ih (i + 1) _ _ _ hlen' (Or.inl ⟨rfl, rfl, rfl⟩)
    · subst h1; subst h2
      simp only [ptlLoop, specLoop, hstop, hok]
      by_cases hg : 0 ≤ (nearestIdx wps (stops.getD i ptZero) : Int) - (car : Int) ∧
          (nearestIdx wps (stops.getD i ptZero) : Int) - (car : Int) < bound
      · rw [if_pos hg, if_pos hg]
        exact ih (i + 1) _ _ _ hlen' (Or.inr ⟨light, _, rfl, rfl⟩)
      · rw [if_neg hg, if_neg hg]
        exact ih (i + 1) _ _ _ hlen' (Or.inr ⟨l, x, rfl, rfl⟩)

/-- C10: with in-bounds indices (guaranteed on a non-empty route, where
every nearest index is below the route length), initializing the running
minimum gap to the route length excludes no candidate with gap ≥ 0: the
code's bounded loop computes exactly the unrestricted minimum-gap selection. -/
theorem tl_C10_bound_no_exclusion (wps stops : List Point) (lights : List TLState)
    (car : Nat) (hw : wps ≠ []) (hlen : lights.length ≤ stops.length) :
    ptlLoop wps stops car lights 0 ((wps.length : Int)) none =
      Except.ok ((specLoop wps stops car lights 0 none).map (fun t => (t.1, t.2.1))) :=
  ptlLoop_sim_spec wps stops car hw lights 0 ((wps.length : Int)) none none
    (by simpa using hlen) (Or.inl ⟨rfl, rfl, rfl⟩)

theorem tl_C10_bound_no_exclusion_witness :
    ([ptZero, ⟨1, 0⟩] : List Point) ≠ [] ∧
    ([TLState.red] : List TLState).length ≤ ([ptZero] : List Point).length ∧
    ptlLoop [ptZero, ⟨1, 0⟩] [ptZero] 0 [TLState.red] 0
        ((([ptZero, ⟨1, 0⟩] : List Point).length : Int)) none =
      Except.ok ((specLoop [ptZero, ⟨1, 0⟩] [ptZero] 0 [TLState.red] 0 none).map
        (fun t => (t.1, t.2.1))) :=
  ⟨List.cons_ne_nil _ _, by decide,
    tl_C10_bound_no_exclusion [ptZero, ⟨1, 0⟩] [ptZero] [TLState.red] 0
      (List.cons_ne_nil _ _) (by decide)⟩

/-! ## Length-mismatch behavior (C8) -/

/-- When the lights outnumber the stop lines, the loop reaches an index past
the end of the stop-line list and fails with `indexError`. -/
theorem ptlLoop_indexError (wps stops : List Point) (car : Nat) (hw : wps ≠ []) :
    ∀ (rest : List TLState) (i : Nat) (bound : Int) (acc : Option (TLState × Nat)),
    stops.length < i + rest.length → i ≤ stops.length →
    ptlLoop wps stops car rest i bound acc = Except.error CycleErr.indexError := by
  intro rest
  induction rest with
  | nil =>
    intro i bound acc h1 h2
    simp only [List.length_nil, Nat.add_zero] at h1
    omega
  | cons light rest' ih =>
    intro i bound acc h1 h2
    by_cases hi : i < stops.length
    · have hstop : stops[i]? = some (stops.getD i ptZero) := by
        rw [List.getElem?_eq_getElem hi, List.getD_eq_getElem _ _ hi]
      obtain ⟨d, hok, -⟩ := get_closest_ok wps (stops.getD i ptZero) hw
      have h1' : stops.length < (i + 1) + rest'.length := by
        simp only [List.length_cons] at h1
        omega
      simp only [ptlLoop, hstop, hok]
      by_cases hcond :
          0 ≤ (nearestIdx wps (stops.getD i ptZero) : Int) - (car : Int) ∧
            (nearestIdx wps (stops.getD i ptZero) : Int) - (car : Int) < bound
      · rw [if_pos hcond]
        exact ih (i + 1) _ _ h1' hi
      · rw [if_neg hcond]
        exact ih (i + 1) _ _ h1' hi
    · have hstop : stops[i]? = none := by
        rw [List.getElem?_eq_none]
        omega
      simp [ptlLoop, hstop]

/-- C8 amended: with a pose present on a non-empty route, surplus lights make
the cycle fail with an index error, while surplus stop lines are silently
ignored and a normal result is produced. -/
theorem tl_C8_mismatch_behavior (p : Point) (wps stops : List Point)
    (lights : List TLState) (hw : wps ≠ []) :
    (stops.length < lights.length →
      process_traffic_lights (some p) (some wps) stops lights =
        Except.error CycleErr.indexError) ∧
    (lights.length ≤ stops.length →
      ∃ r, process_traffic_lights (some p) (some wps) stops lights = Except.ok r) := by
  obtain ⟨dc, hcar, -⟩ := get_closest_ok wps p hw
  constructor
  · intro hlt
    simp only [process_traffic_lights, hcar]
    rw [ptlLoop_indexError wps stops (nearestIdx wps p) hw lights 0 ((wps.length : Int))
      none (by simpa using hlt) (Nat.zero_le _)]
  · intro hle
    obtain ⟨bound', acc', hrun, -⟩ :=
      ptlLoop_run wps stops (nearestIdx wps p) lights ((wps.length : Int)) hw hle
    simp only [process_traffic_lights, hcar, hrun]
    cases acc' with
    | none => exact ⟨(-1, TLState.unknown), rfl⟩
    | some r =>
      obtain ⟨light, idx⟩ := r
      exact ⟨((idx : Int), light), rfl⟩

theorem tl_C8_mismatch_behavior_witness :
    ([ptZero, ⟨1, 0⟩] : List Point) ≠ [] ∧
    ((([] : List Point).length < ([TLState.red] : List TLState).length →
      process_traffic_lights (some ptZero) (some [ptZero, ⟨1, 0⟩]) [] [TLState.red] =
        Except.error CycleErr.indexError) ∧
    (([TLState.red] : List TLState).length ≤ ([] : List Point).length →
      ∃ r, process_traffic_lights (some ptZero) (some [ptZero, ⟨1, 0⟩]) [] [TLState.red] =
        Except.ok r)) ∧
    process_traffic_lights (some ptZero) (some [ptZero, ⟨1, 0⟩]) [] [TLState.red] =
      Except.error CycleErr.indexError :=
  ⟨List.cons_ne_nil _ _,
    tl_C8_mismatch_behavior ptZero [ptZero, ⟨1, 0⟩] [] [TLState.red] (List.cons_ne_nil _ _),
    (tl_C8_mismatch_behavior ptZero [ptZero, ⟨1, 0⟩] [] [TLState.red]
      (List.cons_ne_nil _ _)).1 (by decide)⟩
